import Mathlib

/-!
Verification of the nord-apps VPN analytics platform against its
specification. The repository's checked-in sources are the two React
frontends (performance-app, cost-app, usage-app) plus README documents;
the Python aggregation repository and session generator described by the
spec are not part of the checked-in sources, so those components are
modelled here directly from the spec's §3/§4/§7/§8 text. The frontend
utility functions (trend colors, scenario recommendation) are embedded
from the JavaScript sources verbatim.

Rates and latencies are modelled over ℚ: the spec states exact
arithmetic identities (`rate = count / total × 100`) and guard semantics,
which ℚ captures without floating-point noise.
-/

namespace VPN

/-- VPN tunnel protocol (spec §3, Session.protocol enum). -/
inductive Protocol
  | WireGuard
  | OpenVPN
  | IKEv2
  | NordLynx
deriving DecidableEq, Repr

/-- Client platform (spec §3, Session.platform enum). -/
inductive Platform
  | Windows
  | MacOS
  | Linux
  | IOS
  | Android
deriving DecidableEq, Repr

/-- Cloud provider (spec §3, Server.provider enum). -/
inductive Provider
  | AWS
  | GCP
  | Azure
  | DigitalOcean
  | Vultr
deriving DecidableEq, Repr

/-- Modelled from the spec: Server row (spec §3). The storage layer and
ORM row type are not in the checked-in sources. -/
structure Server where
  id : Nat
  hostname : String
  location : String
  provider : Provider
  cpu_spec : String
  ram_gb : Nat
  cores : Nat
deriving DecidableEq, Repr

/-- Modelled from the spec: Session row (spec §3), one VPN connection
attempt. `connecting_time_ms` is `none` when the connection failed before
establishment; timestamps are modelled at day granularity, which is the
granularity the window filters and trend buckets use. -/
structure Session where
  id : Nat
  server_id : Nat
  day : Nat
  protocol : Protocol
  platform : Platform
  connecting_time_ms : Option ℚ
  connect_intent_trigger : String
  disconnect_intent_trigger : String
  nonet_event_count : Nat
  reconnect_event_count : Nat
  unexpected_disconnect : Bool
  has_user_rating : Bool
  is_negative_rating : Bool
  connected : Bool
deriving DecidableEq, Repr

/-- Modelled from the spec: daily per-server cost row (spec §3). -/
structure CostRecord where
  server_id : Nat
  date : Nat
  base_cost : ℚ
  transfer_cost : ℚ
  session_count : Nat
deriving DecidableEq, Repr

/-! ### Aggregation repository (modelled from spec §4.2)

Each public operation takes a `days` window measured back from `now`,
mapped to the half-open interval `(now - days, now]` of day indices.
Every derived rate is computed fresh from the row population; the
division guards short-circuit to `0` before the divide (spec edge-case
policy). -/

/-- Modelled from the spec: the window filter `(now - days, now]`. -/
def inWindow (now days : Nat) (s : Session) : Bool :=
  decide (now - days < s.day) && decide (s.day ≤ now)

/-- Modelled from the spec: the prior-period window `(now - 2·days, now - days]`. -/
def inPriorWindow (now days : Nat) (s : Session) : Bool :=
  decide (now - 2 * days < s.day) && decide (s.day ≤ now - days)

/-- Number of sessions in the list that successfully connected. -/
def connectedCount (ss : List Session) : Nat :=
  (ss.filter (·.connected)).length

/-- Modelled from the spec: `connectivity_rate = connected_count /
total_count × 100`, guarded to `0` on an empty population. -/
def connectivityRate (ss : List Session) : ℚ :=
  if ss.length = 0 then 0
  else (connectedCount ss : ℚ) / (ss.length : ℚ) * 100

/-- Modelled from the spec: `change_percent = (current - prior) / prior ×
100`, returning `0` when the prior period value is `0`. -/
def changePercent (current prior : ℚ) : ℚ :=
  if prior = 0 then 0 else (current - prior) / prior * 100

/-- Connectivity summary record returned to the API boundary (spec §4.2). -/
structure ConnectivitySummary where
  connectivity_rate : ℚ
  connected_count : Nat
  total_count : Nat
  prior_rate : ℚ
  change_percent : ℚ
deriving DecidableEq, Repr

/-- Modelled from the spec: the connectivity-summary operation. -/
def connectivitySummary (db : List Session) (now days : Nat) : ConnectivitySummary :=
  let cur := db.filter (inWindow now days)
  let pri := db.filter (inPriorWindow now days)
  let rate := connectivityRate cur
  let prate := connectivityRate pri
  { connectivity_rate := rate
    connected_count := connectedCount cur
    total_count := cur.length
    prior_rate := prate
    change_percent := changePercent rate prate }

/-- Latencies of the connected sessions (spec: latency metrics are
computed over connected sessions only). -/
def latencies (ss : List Session) : List ℚ :=
  (ss.filter (·.connected)).filterMap (·.connecting_time_ms)

/-- Modelled from the spec: mean, guarded to `0` on the empty set. -/
def mean (xs : List ℚ) : ℚ :=
  if xs.length = 0 then 0 else xs.sum / (xs.length : ℚ)

/-- Modelled from the spec: interpolated percentile over the sorted order
statistics. `p/100 × (n-1)` gives a fractional rank; the value is the
linear interpolation between the two adjacent order statistics. Empty
input returns `0`. -/
def percentile (p : ℚ) (xs : List ℚ) : ℚ :=
  let s := List.insertionSort (· ≤ ·) xs
  if s.length = 0 then 0
  else
    let rank : ℚ := p / 100 * ((s.length : ℚ) - 1)
    let k : Nat := (⌊rank⌋).toNat
    let lo := s.getD k 0
    let hi := s.getD (k + 1) lo
    lo + (rank - (k : ℚ)) * (hi - lo)

/-- The interpolation step of `percentile`: value at fractional rank
`rank` between the adjacent order statistics of `s`. -/
def interp (s : List ℚ) (rank : ℚ) : ℚ :=
  s.getD (⌊rank⌋).toNat 0
    + (rank - ((⌊rank⌋).toNat : ℚ))
      * (s.getD ((⌊rank⌋).toNat + 1) (s.getD (⌊rank⌋).toNat 0)
          - s.getD (⌊rank⌋).toNat 0)

/-- Latency metrics record (spec §4.2). -/
structure LatencyMetrics where
  avg_latency_ms : ℚ
  median_latency_ms : ℚ
  p95_latency_ms : ℚ
deriving DecidableEq, Repr

/-- Modelled from the spec: the latency-metrics operation. -/
def latencyMetrics (db : List Session) (now days : Nat) : LatencyMetrics :=
  let xs := latencies (db.filter (inWindow now days))
  { avg_latency_ms := mean xs
    median_latency_ms := percentile 50 xs
    p95_latency_ms := percentile 95 xs }

/-- Sessions that saw at least one network-unavailable event. -/
def nonetCount (ss : List Session) : Nat :=
  (ss.filter (fun s => decide (0 < s.nonet_event_count))).length

/-- Modelled from the spec: `nonet_rate = sessions_with_nonet / total ×
100`, guarded to `0` on the empty population. -/
def nonetRate (ss : List Session) : ℚ :=
  if ss.length = 0 then 0
  else (nonetCount ss : ℚ) / (ss.length : ℚ) * 100

/-- Quality metrics record (spec §4.2). -/
structure QualityMetrics where
  nonet_rate : ℚ
  total_reconnects : Nat
  unexpected_disconnects : Nat
deriving DecidableEq, Repr

/-- Modelled from the spec: the quality-metrics operation. -/
def qualityMetrics (db : List Session) (now days : Nat) : QualityMetrics :=
  let ss := db.filter (inWindow now days)
  { nonet_rate := nonetRate ss
    total_reconnects := (ss.map (·.reconnect_event_count)).sum
    unexpected_disconnects := (ss.filter (·.unexpected_disconnect)).length }

/-- Sessions carrying a user rating. -/
def ratedCount (ss : List Session) : Nat :=
  (ss.filter (·.has_user_rating)).length

/-- Rated sessions whose rating is negative. -/
def negativeCount (ss : List Session) : Nat :=
  (ss.filter (fun s => s.has_user_rating && s.is_negative_rating)).length

/-- Modelled from the spec: `satisfaction_rate = (rated_count -
negative_count) / rated_count × 100`, with the 0/0 case guarded to `0`. -/
def satisfactionRate (ss : List Session) : ℚ :=
  if ratedCount ss = 0 then 0
  else ((ratedCount ss : ℚ) - (negativeCount ss : ℚ)) / (ratedCount ss : ℚ) * 100

/-- User-satisfaction record (spec §4.2). -/
structure SatisfactionMetrics where
  satisfaction_rate : ℚ
  rated_count : Nat
  negative_count : Nat
deriving DecidableEq, Repr

/-- Modelled from the spec: the user-satisfaction operation. -/
def userSatisfaction (db : List Session) (now days : Nat) : SatisfactionMetrics :=
  let ss := db.filter (inWindow now days)
  { satisfaction_rate := satisfactionRate ss
    rated_count := ratedCount ss
    negative_count := negativeCount ss }

/-- Per-server record returned by the by-server operation (spec §4.2). -/
structure ServerRecord where
  hostname : String
  location : String
  provider : Provider
  session_count : Nat
  avg_latency : ℚ
  nonet_rate : ℚ
deriving DecidableEq, Repr

/-- Ascending order on average latency ("top performing" first). -/
def latAsc (a b : ServerRecord) : Prop := a.avg_latency ≤ b.avg_latency

/-- Descending order on average latency ("bottom performing" first). -/
def latDesc (a b : ServerRecord) : Prop := b.avg_latency ≤ a.avg_latency

instance : DecidableRel latAsc :=
  fun a b => inferInstanceAs (Decidable (a.avg_latency ≤ b.avg_latency))

instance : DecidableRel latDesc :=
  fun a b => inferInstanceAs (Decidable (b.avg_latency ≤ a.avg_latency))

instance : IsTotal ServerRecord latAsc := ⟨fun a b => le_total a.avg_latency b.avg_latency⟩

instance : IsTrans ServerRecord latAsc := ⟨fun _ _ _ hab hbc => le_trans hab hbc⟩

instance : IsTotal ServerRecord latDesc := ⟨fun a b => le_total b.avg_latency a.avg_latency⟩

instance : IsTrans ServerRecord latDesc := ⟨fun _ _ _ hab hbc => le_trans hbc hab⟩

/-- Modelled from the spec: the per-server aggregate over the sessions of
one server. -/
def serverRecord (db : List Session) (sv : Server) : ServerRecord :=
  let ss := db.filter (fun s => decide (s.server_id = sv.id))
  { hostname := sv.hostname
    location := sv.location
    provider := sv.provider
    session_count := ss.length
    avg_latency := mean (latencies ss)
    nonet_rate := nonetRate ss }

/-- Modelled from the spec: the by-server operation. One record per
server group, sorted ascending by average latency for "top performing"
(`top = true`), descending for "bottom performing", then truncated to
`limit` records. -/
def byServer (db : List Session) (servers : List Server)
    (now days limit : Nat) (top : Bool) : List ServerRecord :=
  let recs := servers.map (serverRecord (db.filter (inWindow now days)))
  let sorted :=
    if top then List.insertionSort latAsc recs
    else List.insertionSort latDesc recs
  sorted.take limit

/-- Per-protocol record (spec §4.2). -/
structure ProtocolRecord where
  protocol : Protocol
  session_count : Nat
  avg_latency : ℚ
  nonet_rate : ℚ
  connectivity_rate : ℚ
deriving DecidableEq, Repr

/-- The fixed protocol enumeration order used for grouping. -/
def allProtocols : List Protocol := [.WireGuard, .OpenVPN, .IKEv2, .NordLynx]

/-- Modelled from the spec: the per-protocol aggregate. -/
def protocolRecord (ss : List Session) (p : Protocol) : ProtocolRecord :=
  let g := ss.filter (fun s => decide (s.protocol = p))
  { protocol := p
    session_count := g.length
    avg_latency := mean (latencies g)
    nonet_rate := nonetRate g
    connectivity_rate := connectivityRate g }

/-- Modelled from the spec: the by-protocol operation. -/
def byProtocol (db : List Session) (now days : Nat) : List ProtocolRecord :=
  allProtocols.map (protocolRecord (db.filter (inWindow now days)))

/-- Per-location record (spec §4.2). -/
structure LocationRecord where
  location : String
  session_count : Nat
  avg_latency : ℚ
  nonet_rate : ℚ
deriving DecidableEq, Repr

/-- Modelled from the spec: the per-location aggregate over the sessions
of the servers at one location. -/
def locationRecord (db : List Session) (servers : List Server)
    (loc : String) : LocationRecord :=
  let ids := (servers.filter (fun sv => decide (sv.location = loc))).map (·.id)
  let g := db.filter (fun s => ids.contains s.server_id)
  { location := loc
    session_count := g.length
    avg_latency := mean (latencies g)
    nonet_rate := nonetRate g }

/-- Modelled from the spec: the by-location operation, one record per
distinct server location. -/
def byLocation (db : List Session) (servers : List Server)
    (now days : Nat) : List LocationRecord :=
  ((servers.map (·.location)).dedup).map
    (locationRecord (db.filter (inWindow now days)) servers)

/-- Daily trend row (spec §4.2). -/
structure TrendRecord where
  date : Nat
  connectivity_rate : ℚ
  avg_latency_ms : ℚ
  session_count : Nat
deriving DecidableEq, Repr

/-- Modelled from the spec: the aggregate over one day's sessions. -/
def trendRecord (db : List Session) (d : Nat) : TrendRecord :=
  let g := db.filter (fun s => decide (s.day = d))
  { date := d
    connectivity_rate := connectivityRate g
    avg_latency_ms := mean (latencies g)
    session_count := g.length }

/-- Modelled from the spec: the trends operation, one row per day of the
window, ordered by date. -/
def trends (db : List Session) (now days : Nat) : List TrendRecord :=
  (List.range days).map (fun i => trendRecord db (now - days + 1 + i))

/-- The storage-layer snapshot visible to one aggregation call (spec §5:
snapshot-consistent reads within a single call). -/
structure Store where
  servers : List Server
  sessions : List Session
  now : Nat
deriving DecidableEq, Repr

/-- A request from the API boundary (spec §6): operation plus its
`(days, limit, group)`-style parameters. -/
inductive Query
  | connectivity (days : Nat)
  | latency (days : Nat)
  | quality (days : Nat)
  | satisfaction (days : Nat)
  | protocolBreakdown (days : Nat)
  | serverBreakdown (days limit : Nat) (top : Bool)
  | locationBreakdown (days : Nat)
  | trendSeries (days : Nat)
deriving DecidableEq, Repr

/-- A flat result record, or an ordered list of records for grouped
queries (spec §6). -/
inductive QueryResult
  | connectivity (r : ConnectivitySummary)
  | latency (r : LatencyMetrics)
  | quality (r : QualityMetrics)
  | satisfaction (r : SatisfactionMetrics)
  | protocols (rs : List ProtocolRecord)
  | servers (rs : List ServerRecord)
  | locations (rs : List LocationRecord)
  | trendSeries (rs : List TrendRecord)
deriving DecidableEq, Repr

/-- Modelled from the spec: dispatch one aggregation call over the store
snapshot. Every derived rate is recomputed fresh from the current row
population; nothing is cached. -/
def runQuery (st : Store) : Query → QueryResult
  | .connectivity days => .connectivity (connectivitySummary st.sessions st.now days)
  | .latency days => .latency (latencyMetrics st.sessions st.now days)
  | .quality days => .quality (qualityMetrics st.sessions st.now days)
  | .satisfaction days => .satisfaction (userSatisfaction st.sessions st.now days)
  | .protocolBreakdown days => .protocols (byProtocol st.sessions st.now days)
  | .serverBreakdown days limit top =>
      .servers (byServer st.sessions st.servers st.now days limit top)
  | .locationBreakdown days => .locations (byLocation st.sessions st.servers st.now days)
  | .trendSeries days => .trendSeries (trends st.sessions st.now days)

/-- An aggregation call as seen by the API boundary: a read-only scan
that returns the result together with the (unchanged) store. -/
def call (st : Store) (q : Query) : QueryResult × Store := (runQuery st q, st)

/-! ### Session generator (modelled from spec §4.1, §6, §7) -/

/-- Modelled from the spec: generation error kinds (spec §7). -/
inductive GenError
  | ConfigurationError
  | DistributionError
  | StorageError
deriving DecidableEq, Repr

/-- Modelled from the spec: generation parameters; non-positive values
are rejected with `ConfigurationError` before any work begins. -/
structure GenConfig where
  server_count : Int
  day_count : Int
  avg_sessions_per_day : Int
deriving DecidableEq, Repr

/-- Modelled from the spec: a weight table is valid when its weights sum
to `1.0` within the floating-point tolerance `1e-9` (spec §8). -/
def validWeights (ws : List ℚ) : Bool :=
  decide (|ws.sum - 1| ≤ 1 / 1000000000)

/-- Modelled from the spec: the probability tables consulted by the
generator — protocol mix, platform mix, provider mix and the diurnal
hourly load curve — each of which must be validated before any weighted
draw. -/
structure GenDists where
  protocolTable : List (Protocol × ℚ)
  platformTable : List (Platform × ℚ)
  providerTable : List (Provider × ℚ)
  hourlyTable : List (Nat × ℚ)
deriving DecidableEq, Repr

/-- The weight columns of all configured probability tables. -/
def GenDists.tables (d : GenDists) : List (List ℚ) :=
  [d.protocolTable.map Prod.snd, d.platformTable.map Prod.snd,
   d.providerTable.map Prod.snd, d.hourlyTable.map Prod.snd]

/-- Weighted draw: walk the table subtracting weights until the uniform
draw `u` falls inside a cell; the default covers an exhausted table. -/
def weightedPick {α : Type} (dflt : α) : List (α × ℚ) → ℚ → α
  | [], _ => dflt
  | (a, w) :: rest, u => if u < w then a else weightedPick dflt rest (u - w)

/-- Modelled from the spec: per-protocol connection-success probability,
WireGuard/NordLynx higher than OpenVPN/IKEv2 (spec §4.1 step 4). -/
def successProb : Protocol → ℚ
  | .WireGuard => 97 / 100
  | .NordLynx => 98 / 100
  | .OpenVPN => 93 / 100
  | .IKEv2 => 94 / 100

/-- Modelled from the spec: per-protocol latency center, fast protocols
skewing low (spec §4.1 step 5). -/
def latBase : Protocol → ℚ
  | .WireGuard => 80
  | .NordLynx => 70
  | .OpenVPN => 220
  | .IKEv2 => 180

/-- Modelled from the spec: latency sample around the per-protocol
center, clipped to a non-negative floor. -/
def sampleLatency (p : Protocol) (u : ℚ) : ℚ :=
  max 0 (latBase p + latBase p * (u - 1 / 2))

/-- Modelled from the spec: low-mean Poisson-like event count drawn by
inverse CDF. -/
def sampleCount (u : ℚ) : Nat :=
  if u < 7 / 10 then 0
  else if u < 9 / 10 then 1
  else if u < 97 / 100 then 2
  else 3

/-- Modelled from the spec: negative-rating probability, monotone in the
session's quality-event count (more issues, more likely negative). -/
def negProb (events : Nat) : ℚ :=
  min 1 (1 / 10 + (events : ℚ) * (3 / 20))

/-- Probability that a connected session carries a user rating. -/
def ratingProb : ℚ := 3 / 10

/-- Probability of an unexpected disconnect. -/
def udProb : ℚ := 1 / 20

/-- Modelled from the spec: the identifiers and uniform draws consumed
while synthesizing one session. -/
structure SessionDraws where
  sid : Nat
  server_id : Nat
  day : Nat
  uProto : ℚ
  uPlat : ℚ
  uConn : ℚ
  uLat : ℚ
  uNonet : ℚ
  uRecon : ℚ
  uUd : ℚ
  uRate : ℚ
  uNeg : ℚ
deriving DecidableEq, Repr

/-- Modelled from the spec: synthesize one session (spec §4.1 steps 4-5).
`connected` is a Bernoulli trial on the per-protocol success probability;
a connected session gets a clipped non-negative latency, event counts and
a conditional rating; a failed connection carries no latency, no events
and no rating. -/
def genSession (d : GenDists) (sp : SessionDraws) : Session :=
  let proto := weightedPick Protocol.WireGuard d.protocolTable sp.uProto
  let plat := weightedPick Platform.Windows d.platformTable sp.uPlat
  if sp.uConn < successProb proto then
    let nonet := sampleCount sp.uNonet
    let recon := sampleCount sp.uRecon
    let hasR := decide (sp.uRate < ratingProb)
    { id := sp.sid, server_id := sp.server_id, day := sp.day,
      protocol := proto, platform := plat,
      connecting_time_ms := some (sampleLatency proto sp.uLat),
      connect_intent_trigger := "user", disconnect_intent_trigger := "user",
      nonet_event_count := nonet, reconnect_event_count := recon,
      unexpected_disconnect := decide (sp.uUd < udProb),
      has_user_rating := hasR,
      is_negative_rating := hasR && decide (sp.uNeg < negProb (nonet + recon)),
      connected := true }
  else
    { id := sp.sid, server_id := sp.server_id, day := sp.day,
      protocol := proto, platform := plat,
      connecting_time_ms := none,
      connect_intent_trigger := "user", disconnect_intent_trigger := "failure",
      nonet_event_count := 0, reconnect_event_count := 0,
      unexpected_disconnect := false, has_user_rating := false,
      is_negative_rating := false, connected := false }

/-- Modelled from the spec: provider pricing table `provider →
(monthly_cost, cost_per_gb_transfer)` (spec §3). -/
def providerPricing : Provider → ℚ × ℚ
  | .AWS => (120, 9 / 100)
  | .GCP => (110, 8 / 100)
  | .Azure => (115, 87 / 1000)
  | .DigitalOcean => (60, 1 / 100)
  | .Vultr => (55, 1 / 100)

/-- Fixed location pool (spec §4.1 step 1). -/
def locationPool : List String :=
  ["New York", "London", "Frankfurt", "Singapore", "Tokyo", "Sydney"]

/-- Modelled from the spec: allocate one server row — provider by
weighted draw, location from the fixed pool, specs in range (spec §4.1
step 1). -/
def mkServer (d : GenDists) (rng : Nat → ℚ) (i : Nat) : Server :=
  { id := i, hostname := "vpn-" ++ toString i,
    location := locationPool.getD (i % locationPool.length) "New York",
    provider := weightedPick Provider.AWS d.providerTable (rng i),
    cpu_spec := "4 vCPU", ram_gb := 8, cores := 4 }

/-- Modelled from the spec: one cost row per (server, day): base cost is
the provider monthly rate over days-in-month, transfer cost is the
session volume times the provider per-GB rate (spec §4.1 step 6). -/
def mkCostRecord (sessions : List Session) (sv : Server) (day : Nat) : CostRecord :=
  let n := (sessions.filter (fun s =>
    decide (s.server_id = sv.id) && decide (s.day = day))).length
  { server_id := sv.id, date := day,
    base_cost := (providerPricing sv.provider).1 / 30,
    transfer_cost := (n : ℚ) * (3 / 2) * (providerPricing sv.provider).2,
    session_count := n }

/-- A committed generation batch. -/
structure GenResult where
  servers : List Server
  sessions : List Session
  cost_records : List CostRecord
deriving DecidableEq, Repr

/-- Modelled from the spec: the generator entry point
`generate(server_count, day_count, avg_sessions_per_day)` (spec §4.1,
§6, §7). Parameters are validated first (`ConfigurationError`); then
every configured probability table must sum to 1 within `1e-9` before
any weighted draw is made, a violation raising `DistributionError`; only
then are rows produced and committed, so a failed validation commits no
rows at all. -/
def generate (cfg : GenConfig) (d : GenDists) (rng : Nat → ℚ)
    (draws : List SessionDraws) : Except GenError GenResult :=
  if cfg.server_count ≤ 0 ∨ cfg.day_count ≤ 0 ∨ cfg.avg_sessions_per_day ≤ 0 then
    .error .ConfigurationError
  else if d.tables.all validWeights then
    let servers := (List.range cfg.server_count.toNat).map (mkServer d rng)
    let sessions := draws.map (genSession d)
    .ok { servers := servers, sessions := sessions,
          cost_records := (servers.map (fun sv =>
            (List.range cfg.day_count.toNat).map (mkCostRecord sessions sv))).flatten }
  else
    .error .DistributionError

end VPN

namespace PerfApp

/-- `getTrendColor` from performance-app `src/utils/formatters.js`:
positive values are green, negative red, zero neutral grey. -/
def getTrendColor (value : ℚ) : String :=
  if value > 0 then "#4caf50"
  else if value < 0 then "#f44336"
  else "#9e9e9e"

end PerfApp

namespace CostApp

/-- `getTrendColor` from the cost-app frontend: positive values (cost
increases) use the theme error color, negative values (cost decreases)
the success color, zero the secondary text color. -/
def getTrendColor (value : ℚ) : String :=
  if value > 0 then "error.main"
  else if value < 0 then "success.main"
  else "text.secondary"

/-- The scenario recommendation computed in cost-app
`CostAnalysisDashboard.js` (`handleScenarioSubmit`):
`savings > 0 ? 'Proceed' : savings < -1000 ? 'Caution' : 'Review'`. -/
def recommendation (savings : ℚ) : String :=
  if savings > 0 then "Proceed"
  else if savings < -1000 then "Caution"
  else "Review"

end CostApp

/-- A concrete connected session used by witnesses. -/
def demoSession : VPN.Session :=
  { id := 0, server_id := 0, day := 1, protocol := .WireGuard,
    platform := .Windows, connecting_time_ms := some 100,
    connect_intent_trigger := "manual", disconnect_intent_trigger := "manual",
    nonet_event_count := 0, reconnect_event_count := 0,
    unexpected_disconnect := false, has_user_rating := false,
    is_negative_rating := false, connected := true }

/-- A concrete rated (negative) session used by witnesses. -/
def ratedSession : VPN.Session :=
  { demoSession with id := 1, has_user_rating := true, is_negative_rating := true }

/-- Ten concrete server rows used by the C5 witness. -/
def demoServers : List VPN.Server :=
  (List.range 10).map (fun i =>
    { id := i, hostname := "h", location := "l", provider := .AWS,
      cpu_spec := "c", ram_gb := 8, cores := 4 })

/-- Concrete probability tables used by witnesses; every table sums to 1. -/
def demoDists : VPN.GenDists :=
  { protocolTable := [(.WireGuard, 1)]
    platformTable := [(.Windows, 1)]
    providerTable := [(.AWS, 1)]
    hourlyTable := [(12, 1)] }

/-- Concrete valid generation parameters used by witnesses. -/
def demoCfg : VPN.GenConfig :=
  { server_count := 2, day_count := 1, avg_sessions_per_day := 3 }

/-- Concrete draw packet used by witnesses. -/
def demoDraw : VPN.SessionDraws :=
  { sid := 0, server_id := 0, day := 1, uProto := 1 / 2, uPlat := 1 / 2,
    uConn := 1 / 2, uLat := 1 / 2, uNonet := 1 / 2, uRecon := 1 / 2,
    uUd := 1 / 2, uRate := 1 / 2, uNeg := 1 / 2 }

/-- The committed batch of the witnesses' concrete generator run. -/
def demoRun : VPN.GenResult :=
  { servers := (List.range demoCfg.server_count.toNat).map
      (VPN.mkServer demoDists (fun _ => 1 / 2))
    sessions := [demoDraw].map (VPN.genSession demoDists)
    cost_records := (((List.range demoCfg.server_count.toNat).map
        (VPN.mkServer demoDists (fun _ => 1 / 2))).map (fun sv =>
      (List.range demoCfg.day_count.toNat).map
        (VPN.mkCostRecord ([demoDraw].map (VPN.genSession demoDists)) sv))).flatten }

/-- A copy of the witness tables with an unnormalized protocol table. -/
def demoBadDists : VPN.GenDists :=
  { demoDists with protocolTable := [(.WireGuard, 1 / 2), (.OpenVPN, 1 / 3)] }

namespace VPN

/-- The two per-session invariants of spec §3/§8, for one generated
session. -/
theorem genSession_invariants (d : GenDists) (sp : SessionDraws) :
    ((genSession d sp).is_negative_rating = true →
        (genSession d sp).has_user_rating = true)
      ∧ ((genSession d sp).connected = true ↔
          ((genSession d sp).connecting_time_ms.isSome = true
            ∧ 0 ≤ (genSession d sp).connecting_time_ms.getD 0)) := by
  unfold genSession
  by_cases h : sp.uConn
      < successProb (weightedPick Protocol.WireGuard d.protocolTable sp.uProto)
  · simp only [if_pos h]
    refine ⟨fun hneg => ?_, ?_⟩
    · have := Bool.and_elim_left hneg
      exact this
    · simp [sampleLatency]
  · simp [if_neg h]

theorem percentile_eq (p : ℚ) (xs : List ℚ) :
    percentile p xs =
      if (List.insertionSort (· ≤ ·) xs).length = 0 then 0
      else interp (List.insertionSort (· ≤ ·) xs)
          (p / 100 * (((List.insertionSort (· ≤ ·) xs).length : ℚ) - 1)) := rfl

theorem toNat_floor_cast (r : ℚ) (h0 : 0 ≤ r) :
    ((⌊r⌋.toNat : ℚ)) = ((⌊r⌋ : ℤ) : ℚ) := by
  have h1 : ((⌊r⌋.toNat : ℤ)) = ⌊r⌋ := Int.toNat_of_nonneg (Int.floor_nonneg.mpr h0)
  exact_mod_cast congrArg (fun z : ℤ => (z : ℚ)) h1

theorem toNat_floor_le (r : ℚ) (m : Nat) (h : r ≤ (m : ℚ)) : ⌊r⌋.toNat ≤ m := by
  have h1 : ⌊r⌋ ≤ (m : ℤ) := by
    have := Int.floor_mono h
    simpa using this
  exact Int.toNat_le.mpr h1

theorem toNat_floor_mono (r s : ℚ) (h : r ≤ s) : ⌊r⌋.toNat ≤ ⌊s⌋.toNat :=
  Int.toNat_le_toNat (Int.floor_mono h)

theorem getD_sorted_mono (s : List ℚ) (hs : s.Sorted (· ≤ ·)) (i j : Nat)
    (hij : i ≤ j) (hj : j < s.length) : s.getD i 0 ≤ s.getD j 0 := by
  have hi : i < s.length := lt_of_le_of_lt hij hj
  rw [List.getD_eq_getElem s 0 hi, List.getD_eq_getElem s 0 hj]
  rcases eq_or_lt_of_le hij with rfl | hlt
  · exact le_refl _
  · have := hs.rel_get_of_lt (show (⟨i, hi⟩ : Fin s.length) < ⟨j, hj⟩ from hlt)
    simpa using this

theorem getD_next_ge (s : List ℚ) (hs : s.Sorted (· ≤ ·)) (k : Nat)
    (hk : k < s.length) :
    s.getD k 0 ≤ s.getD (k + 1) (s.getD k 0) := by
  by_cases h : k + 1 < s.length
  · rw [List.getD_eq_getElem s _ h, List.getD_eq_getElem s 0 hk]
    have := hs.rel_get_of_lt
      (show (⟨k, hk⟩ : Fin s.length) < ⟨k + 1, h⟩ from Nat.lt_succ_self k)
    simpa using this
  · rw [List.getD_eq_default s _ (Nat.le_of_not_lt h)]

theorem interp_ge_lo (s : List ℚ) (hs : s.Sorted (· ≤ ·)) (r : ℚ)
    (h0 : 0 ≤ r) (hk : ⌊r⌋.toNat < s.length) :
    s.getD (⌊r⌋).toNat 0 ≤ interp s r := by
  have hcast := toNat_floor_cast r h0
  have hfl : ((⌊r⌋ : ℤ) : ℚ) ≤ r := Int.floor_le r
  have hfrac : (0 : ℚ) ≤ r - ((⌊r⌋.toNat : ℚ)) := by rw [hcast]; linarith
  have hd := getD_next_ge s hs _ hk
  unfold interp
  nlinarith [mul_nonneg hfrac (sub_nonneg.mpr hd)]

theorem interp_le_hi (s : List ℚ) (hs : s.Sorted (· ≤ ·)) (r : ℚ)
    (h0 : 0 ≤ r) (hk : ⌊r⌋.toNat < s.length) :
    interp s r ≤ s.getD ((⌊r⌋).toNat + 1) (s.getD (⌊r⌋).toNat 0) := by
  have hcast := toNat_floor_cast r h0
  have hlt1 : r < ((⌊r⌋ : ℤ) : ℚ) + 1 := Int.lt_floor_add_one r
  have hfrac1 : r - ((⌊r⌋.toNat : ℚ)) ≤ 1 := by rw [hcast]; linarith
  have hd := getD_next_ge s hs _ hk
  unfold interp
  nlinarith [mul_nonneg (show (0 : ℚ) ≤ 1 - (r - ((⌊r⌋.toNat : ℚ))) by linarith)
    (sub_nonneg.mpr hd)]

theorem interp_mono (s : List ℚ) (hs : s.Sorted (· ≤ ·)) (r r' : ℚ)
    (h0 : 0 ≤ r) (hrr : r ≤ r') (hub : r' ≤ (s.length : ℚ) - 1) :
    interp s r ≤ interp s r' := by
  have h0' : 0 ≤ r' := le_trans h0 hrr
  have hnQ : (1 : ℚ) ≤ (s.length : ℚ) := by
    have : ((⌊r'⌋ : ℤ) : ℚ) ≤ r' := Int.floor_le r'
    have h00 : ((0 : ℤ) : ℚ) ≤ r' := by exact_mod_cast h0'
    linarith
  have hn1 : 1 ≤ s.length := by exact_mod_cast hnQ
  have hk'le : ⌊r'⌋.toNat ≤ s.length - 1 := by
    apply toNat_floor_le
    have : ((s.length - 1 : ℕ) : ℚ) = (s.length : ℚ) - 1 := by
      push_cast [Nat.cast_sub hn1]
      ring
    rw [this]
    exact hub
  have hk'lt : ⌊r'⌋.toNat < s.length :=
    lt_of_le_of_lt hk'le (Nat.sub_lt (lt_of_lt_of_le Nat.zero_lt_one hn1) Nat.one_pos)
  have hkk' : ⌊r⌋.toNat ≤ ⌊r'⌋.toNat := toNat_floor_mono r r' hrr
  have hklt : ⌊r⌋.toNat < s.length := lt_of_le_of_lt hkk' hk'lt
  rcases Nat.eq_or_lt_of_le hkk' with heq | hlt
  · have hd := getD_next_ge s hs _ hklt
    unfold interp
    rw [← heq]
    nlinarith [mul_nonneg (sub_nonneg.mpr hrr) (sub_nonneg.mpr hd)]
  · have h1 : interp s r ≤ s.getD ((⌊r⌋).toNat + 1) (s.getD (⌊r⌋).toNat 0) :=
      interp_le_hi s hs r h0 hklt
    have hk1lt : ⌊r⌋.toNat + 1 < s.length := lt_of_le_of_lt hlt hk'lt
    have h2 : s.getD ((⌊r⌋).toNat + 1) (s.getD (⌊r⌋).toNat 0)
        ≤ s.getD (⌊r'⌋).toNat 0 := by
      rw [List.getD_eq_getElem s _ hk1lt]
      rw [show s.getD (⌊r'⌋).toNat 0 = s[(⌊r'⌋).toNat] from
        List.getD_eq_getElem s 0 hk'lt]
      rw [show (s[(⌊r⌋).toNat + 1] : ℚ) = s.getD ((⌊r⌋).toNat + 1) 0 from
        (List.getD_eq_getElem s 0 hk1lt).symm]
      rw [show (s[(⌊r'⌋).toNat] : ℚ) = s.getD (⌊r'⌋).toNat 0 from
        (List.getD_eq_getElem s 0 hk'lt).symm]
      exact getD_sorted_mono s hs _ _ hlt hk'lt
    have h3 : s.getD (⌊r'⌋).toNat 0 ≤ interp s r' :=
      interp_ge_lo s hs r' h0' hk'lt
    linarith

theorem percentile_mono (xs : List ℚ) (p q : ℚ)
    (h0 : 0 ≤ p) (hpq : p ≤ q) (h100 : q ≤ 100) :
    percentile p xs ≤ percentile q xs := by
  rw [percentile_eq, percentile_eq]
  by_cases hxs : (List.insertionSort (· ≤ ·) xs).length = 0
  · simp [hxs]
  · simp only [hxs, if_false]
    have hs : (List.insertionSort (· ≤ ·) xs).Sorted (· ≤ ·) :=
      List.sorted_insertionSort _ _
    have hn1 : 1 ≤ (List.insertionSort (· ≤ ·) xs).length := Nat.pos_of_ne_zero hxs
    have hnQ : (1 : ℚ) ≤ ((List.insertionSort (· ≤ ·) xs).length : ℚ) := by
      exact_mod_cast hn1
    apply interp_mono _ hs
    · exact mul_nonneg (div_nonneg h0 (by norm_num)) (by linarith)
    · exact mul_le_mul_of_nonneg_right
        (div_le_div_of_nonneg_right hpq (by norm_num)) (by linarith)
    · have hq1 : q / 100 ≤ 1 := by
        linarith [div_le_one_of_le₀ h100 (by norm_num : (0:ℚ) ≤ 100)]
      nlinarith

end VPN

/-- C1: for every window and group population, `connectivity_rate` equals
`connected_count / total_count × 100`, lies in `[0, 100]`, and is `0`
(not an error) on an empty population. -/
theorem connectivityRate_formula_and_bounds (ss : List VPN.Session)
    (hne : ss ≠ []) :
    VPN.connectivityRate ss
        = (VPN.connectedCount ss : ℚ) / (ss.length : ℚ) * 100
      ∧ 0 ≤ VPN.connectivityRate ss
      ∧ VPN.connectivityRate ss ≤ 100
      ∧ VPN.connectivityRate [] = 0 := by
  have hlen : ss.length ≠ 0 := fun h => hne (List.length_eq_zero.mp h)
  have hposQ : (0 : ℚ) < (ss.length : ℚ) := by
    exact_mod_cast Nat.pos_of_ne_zero hlen
  have hcle : VPN.connectedCount ss ≤ ss.length := List.length_filter_le _ _
  have hcleQ : (VPN.connectedCount ss : ℚ) ≤ (ss.length : ℚ) := by exact_mod_cast hcle
  have hformula : VPN.connectivityRate ss
      = (VPN.connectedCount ss : ℚ) / (ss.length : ℚ) * 100 := by
    unfold VPN.connectivityRate
    simp [hlen]
  refine ⟨hformula, ?_, ?_, by simp [VPN.connectivityRate]⟩
  · rw [hformula]
    have : (0 : ℚ) ≤ (VPN.connectedCount ss : ℚ) / (ss.length : ℚ) :=
      div_nonneg (by positivity) (le_of_lt hposQ)
    nlinarith
  · rw [hformula]
    have hdiv1 : (VPN.connectedCount ss : ℚ) / (ss.length : ℚ) ≤ 1 :=
      (div_le_one hposQ).mpr hcleQ
    nlinarith

/-- Witness for C1 at a concrete one-session population. -/
theorem connectivityRate_formula_and_bounds_witness :
    ([demoSession] ≠ [])
      ∧ (VPN.connectivityRate [demoSession]
          = (VPN.connectedCount [demoSession] : ℚ) / (([demoSession] : List VPN.Session).length : ℚ) * 100
        ∧ 0 ≤ VPN.connectivityRate [demoSession]
        ∧ VPN.connectivityRate [demoSession] ≤ 100
        ∧ VPN.connectivityRate [] = 0) :=
  ⟨by simp, connectivityRate_formula_and_bounds [demoSession] (by simp)⟩

/-- C2: every aggregation operation maps a zero-session window or group to
zero-valued metrics and zero counts, never to an error or undefined
value: rates are `0`, mean and any percentile over an empty
connected-session set are `0`, and change-percent against a zero prior is
`0`. All operations are total functions, so the no-data case cannot
surface as an exception. -/
theorem zero_data_policy (p c : ℚ) (now days : Nat) :
    VPN.connectivityRate [] = 0
      ∧ VPN.mean [] = 0
      ∧ VPN.percentile p [] = 0
      ∧ VPN.nonetRate [] = 0
      ∧ VPN.satisfactionRate [] = 0
      ∧ VPN.changePercent c 0 = 0
      ∧ VPN.connectivitySummary [] now days
          = { connectivity_rate := 0, connected_count := 0, total_count := 0,
              prior_rate := 0, change_percent := 0 }
      ∧ VPN.latencyMetrics [] now days
          = { avg_latency_ms := 0, median_latency_ms := 0, p95_latency_ms := 0 }
      ∧ VPN.qualityMetrics [] now days
          = { nonet_rate := 0, total_reconnects := 0, unexpected_disconnects := 0 }
      ∧ VPN.userSatisfaction [] now days
          = { satisfaction_rate := 0, rated_count := 0, negative_count := 0 } := by
  refine ⟨by simp [VPN.connectivityRate], by simp [VPN.mean],
    by simp [VPN.percentile], by simp [VPN.nonetRate],
    by simp [VPN.satisfactionRate, VPN.ratedCount], by simp [VPN.changePercent],
    ?_, ?_, ?_, ?_⟩
  · simp [VPN.connectivitySummary, VPN.connectivityRate, VPN.connectedCount,
      VPN.changePercent]
  · simp [VPN.latencyMetrics, VPN.latencies, VPN.mean, VPN.percentile]
  · simp [VPN.qualityMetrics, VPN.nonetRate]
  · simp [VPN.userSatisfaction, VPN.satisfactionRate, VPN.ratedCount,
      VPN.negativeCount]

/-- C3: `satisfaction_rate` equals `(rated_count - negative_count) /
rated_count × 100` on any population with at least one rated session, and
a population with zero rated sessions (even a non-empty one) yields `0`
rather than a 0/0 division failure. -/
theorem satisfactionRate_spec (ss : List VPN.Session)
    (h : VPN.ratedCount ss ≠ 0) :
    VPN.satisfactionRate ss
        = ((VPN.ratedCount ss : ℚ) - (VPN.negativeCount ss : ℚ))
            / (VPN.ratedCount ss : ℚ) * 100
      ∧ (∀ ts : List VPN.Session, VPN.ratedCount ts = 0 →
          VPN.satisfactionRate ts = 0) := by
  constructor
  · unfold VPN.satisfactionRate
    simp [h]
  · intro ts hts
    unfold VPN.satisfactionRate
    simp [hts]

/-- Witness for C3 at a concrete population with one rated session. -/
theorem satisfactionRate_spec_witness :
    VPN.ratedCount [ratedSession] ≠ 0
      ∧ (VPN.satisfactionRate [ratedSession]
          = ((VPN.ratedCount [ratedSession] : ℚ) - (VPN.negativeCount [ratedSession] : ℚ))
              / (VPN.ratedCount [ratedSession] : ℚ) * 100
        ∧ (∀ ts : List VPN.Session, VPN.ratedCount ts = 0 →
            VPN.satisfactionRate ts = 0)) :=
  ⟨by decide, satisfactionRate_spec [ratedSession] (by decide)⟩

/-- C4: the interpolated percentile is monotone in the percentile rank;
in particular the median (P50) never exceeds the 95th percentile for any
non-empty latency set. -/
theorem percentile_p50_le_p95 (xs : List ℚ) (_hne : xs ≠ []) :
    VPN.percentile 50 xs ≤ VPN.percentile 95 xs :=
  VPN.percentile_mono xs 50 95 (by norm_num) (by norm_num) (by norm_num)

/-- Witness for C4 at a concrete three-element latency set. -/
theorem percentile_p50_le_p95_witness :
    ([3, 1, 2] : List ℚ) ≠ []
      ∧ VPN.percentile 50 [3, 1, 2] ≤ VPN.percentile 95 [3, 1, 2] :=
  ⟨by decide, percentile_p50_le_p95 [3, 1, 2] (by decide)⟩

/-- C5: for every dataset and every positive limit not exceeding the
number of server groups, the by-server operation returns exactly `limit`
records, sorted ascending by average latency for "top performing" and
descending for "bottom performing". -/
theorem byServer_limit_sorted (db : List VPN.Session) (servers : List VPN.Server)
    (now days limit : Nat) (_hpos : 0 < limit) (hle : limit ≤ servers.length) :
    (VPN.byServer db servers now days limit true).length = limit
      ∧ (VPN.byServer db servers now days limit false).length = limit
      ∧ (VPN.byServer db servers now days limit true).Sorted VPN.latAsc
      ∧ (VPN.byServer db servers now days limit false).Sorted VPN.latDesc := by
  refine ⟨?_, ?_, ?_, ?_⟩
  · simp [VPN.byServer, List.length_take, List.length_insertionSort,
      Nat.min_eq_left hle]
  · simp [VPN.byServer, List.length_take, List.length_insertionSort,
      Nat.min_eq_left hle]
  · simp only [VPN.byServer, if_true]
    exact List.Pairwise.sublist (List.take_sublist _ _)
      (List.sorted_insertionSort _ _)
  · simp only [VPN.byServer, Bool.false_eq_true, if_false]
    exact List.Pairwise.sublist (List.take_sublist _ _)
      (List.sorted_insertionSort _ _)

/-- Witness for C5: limit 3 over a population of 10 servers. -/
theorem byServer_limit_sorted_witness :
    0 < 3 ∧ 3 ≤ demoServers.length
      ∧ ((VPN.byServer [] demoServers 0 30 3 true).length = 3
        ∧ (VPN.byServer [] demoServers 0 30 3 false).length = 3
        ∧ (VPN.byServer [] demoServers 0 30 3 true).Sorted VPN.latAsc
        ∧ (VPN.byServer [] demoServers 0 30 3 false).Sorted VPN.latDesc) :=
  ⟨by decide, by decide,
   byServer_limit_sorted [] demoServers 0 30 3 (by decide) (by decide)⟩

/-- C6: every aggregation call is a pure read-only function of the store
snapshot and its parameters: calling any operation twice with identical
parameters and no intervening data change leaves the store unchanged and
returns identical results, including identical ordering of grouped
results. -/
theorem runQuery_idempotent (st : VPN.Store) (q : VPN.Query) :
    (VPN.call st q).1 = (VPN.call (VPN.call st q).2 q).1
      ∧ (VPN.call st q).2 = st :=
  ⟨rfl, rfl⟩

/-- C7: every session record produced by a successful generator run
satisfies both invariants: `is_negative_rating = true` implies
`has_user_rating = true`, and `connected = true` holds iff
`connecting_time_ms` is present and non-negative. -/
theorem generated_session_invariants (cfg : VPN.GenConfig) (d : VPN.GenDists)
    (rng : Nat → ℚ) (draws : List VPN.SessionDraws) (res : VPN.GenResult)
    (hok : VPN.generate cfg d rng draws = .ok res)
    (s : VPN.Session) (hmem : s ∈ res.sessions) :
    (s.is_negative_rating = true → s.has_user_rating = true)
      ∧ (s.connected = true ↔
          (s.connecting_time_ms.isSome = true
            ∧ 0 ≤ s.connecting_time_ms.getD 0)) := by
  have hsess : res.sessions = draws.map (VPN.genSession d) := by
    unfold VPN.generate at hok
    split at hok
    · exact absurd hok (by simp)
    · split at hok
      · cases hok
        rfl
      · exact absurd hok (by simp)
  rw [hsess] at hmem
  obtain ⟨sp, _hsp, rfl⟩ := List.mem_map.mp hmem
  exact VPN.genSession_invariants d sp

/-- Witness for C7 on the session of a concrete successful run. -/
theorem generated_session_invariants_witness :
    VPN.generate demoCfg demoDists (fun _ => 1 / 2) [demoDraw] = .ok demoRun
      ∧ VPN.genSession demoDists demoDraw ∈ demoRun.sessions
      ∧ (((VPN.genSession demoDists demoDraw).is_negative_rating = true →
            (VPN.genSession demoDists demoDraw).has_user_rating = true)
        ∧ ((VPN.genSession demoDists demoDraw).connected = true ↔
            ((VPN.genSession demoDists demoDraw).connecting_time_ms.isSome = true
              ∧ 0 ≤ (VPN.genSession demoDists demoDraw).connecting_time_ms.getD 0))) := by
  have h1 : ¬ (demoCfg.server_count ≤ 0 ∨ demoCfg.day_count ≤ 0
      ∨ demoCfg.avg_sessions_per_day ≤ 0) := by decide
  have h2 : (VPN.GenDists.tables demoDists).all VPN.validWeights = true := by
    norm_num [VPN.GenDists.tables, demoDists, VPN.validWeights]
  have hok : VPN.generate demoCfg demoDists (fun _ => 1 / 2) [demoDraw]
      = .ok demoRun := by
    unfold VPN.generate
    rw [if_neg h1, if_pos h2]
    rfl
  have hmem : VPN.genSession demoDists demoDraw ∈ demoRun.sessions := by
    simp [demoRun]
  exact ⟨hok, hmem,
    generated_session_invariants demoCfg demoDists (fun _ => 1 / 2) [demoDraw]
      demoRun hok (VPN.genSession demoDists demoDraw) hmem⟩

/-- C8: the generator verifies every configured probability table before
any weighted draw; a table whose weights do not sum to 1 within `1e-9`
makes the run fail with `DistributionError`, and no rows are committed:
the run can never return an `ok` batch. -/
theorem invalid_table_aborts (cfg : VPN.GenConfig) (d : VPN.GenDists)
    (rng : Nat → ℚ) (draws : List VPN.SessionDraws)
    (hcfg : 0 < cfg.server_count ∧ 0 < cfg.day_count
      ∧ 0 < cfg.avg_sessions_per_day)
    (hbad : ∃ t ∈ d.tables, VPN.validWeights t = false) :
    VPN.generate cfg d rng draws = .error .DistributionError
      ∧ ∀ res : VPN.GenResult, VPN.generate cfg d rng draws ≠ .ok res := by
  have h1 : ¬ (cfg.server_count ≤ 0 ∨ cfg.day_count ≤ 0
      ∨ cfg.avg_sessions_per_day ≤ 0) := by
    push_neg
    exact ⟨hcfg.1, hcfg.2.1, hcfg.2.2⟩
  have h2 : d.tables.all VPN.validWeights = false := by
    obtain ⟨t, ht, hf⟩ := hbad
    rcases hall : d.tables.all VPN.validWeights with _ | _
    · rfl
    · have := List.all_eq_true.mp hall t ht
      rw [hf] at this
      exact absurd this (by simp)
  have herr : VPN.generate cfg d rng draws = .error .DistributionError := by
    unfold VPN.generate
    rw [if_neg h1, h2]
    simp
  exact ⟨herr, fun res hres => by
    rw [herr] at hres
    exact absurd hres (by simp)⟩

/-- Witness for C8 on a concrete unnormalized table. -/
theorem invalid_table_aborts_witness :
    (0 < demoCfg.server_count ∧ 0 < demoCfg.day_count
        ∧ 0 < demoCfg.avg_sessions_per_day)
      ∧ (∃ t ∈ demoBadDists.tables, VPN.validWeights t = false)
      ∧ (VPN.generate demoCfg demoBadDists (fun _ => 1 / 2) [demoDraw]
            = .error .DistributionError
        ∧ ∀ res : VPN.GenResult,
            VPN.generate demoCfg demoBadDists (fun _ => 1 / 2) [demoDraw]
              ≠ .ok res) := by
  have hcfg : 0 < demoCfg.server_count ∧ 0 < demoCfg.day_count
      ∧ 0 < demoCfg.avg_sessions_per_day := by decide
  have hmem : demoBadDists.protocolTable.map Prod.snd ∈ demoBadDists.tables := by
    simp [VPN.GenDists.tables]
  have hval : VPN.validWeights (demoBadDists.protocolTable.map Prod.snd) = false := by
    norm_num [VPN.validWeights, demoBadDists, demoDists]
    rw [abs_of_nonneg (by norm_num : (0 : ℚ) ≤ 1 / 6)]
    norm_num
  exact ⟨hcfg, ⟨_, hmem, hval⟩,
    invalid_table_aborts demoCfg demoBadDists (fun _ => 1 / 2) [demoDraw]
      hcfg ⟨_, hmem, hval⟩⟩

/-- C9: the two frontends assign opposite color semantics to the sign of
a period-over-period change: a positive change is green in the
performance app but the error color in the cost app; a negative change
is red in the performance app but the success color in the cost app;
zero is neutral in both. -/
theorem getTrendColor_opposite (v : ℚ) :
    (0 < v → PerfApp.getTrendColor v = "#4caf50"
      ∧ CostApp.getTrendColor v = "error.main")
      ∧ (v < 0 → PerfApp.getTrendColor v = "#f44336"
        ∧ CostApp.getTrendColor v = "success.main")
      ∧ (v = 0 → PerfApp.getTrendColor v = "#9e9e9e"
        ∧ CostApp.getTrendColor v = "text.secondary") := by
  refine ⟨fun h => ?_, fun h => ?_, fun h => ?_⟩
  · simp [PerfApp.getTrendColor, CostApp.getTrendColor, h]
  · have h' : ¬ (0 < v) := by linarith
    simp [PerfApp.getTrendColor, CostApp.getTrendColor, h, h']
  · subst h
    simp [PerfApp.getTrendColor, CostApp.getTrendColor]

/-- Witness for C9 at the concrete values 1, -1 and 0. -/
theorem getTrendColor_opposite_witness :
    (PerfApp.getTrendColor 1 = "#4caf50"
        ∧ CostApp.getTrendColor 1 = "error.main")
      ∧ (PerfApp.getTrendColor (-1) = "#f44336"
        ∧ CostApp.getTrendColor (-1) = "success.main")
      ∧ (PerfApp.getTrendColor 0 = "#9e9e9e"
        ∧ CostApp.getTrendColor 0 = "text.secondary") :=
  ⟨(getTrendColor_opposite 1).1 (by norm_num),
   (getTrendColor_opposite (-1)).2.1 (by norm_num),
   (getTrendColor_opposite 0).2.2 rfl⟩

/-- C10: the Scenario Studio recommendation is "Proceed" exactly when the
computed savings are strictly positive, "Caution" exactly when they are
strictly below -1000, and "Review" otherwise; in particular zero savings
and any cost increase of at most 1000 yield "Review". -/
theorem recommendation_thresholds (savings : ℚ) :
    (CostApp.recommendation savings = "Proceed" ↔ 0 < savings)
      ∧ (CostApp.recommendation savings = "Caution" ↔ savings < -1000)
      ∧ (CostApp.recommendation savings = "Review"
          ↔ (savings ≤ 0 ∧ -1000 ≤ savings)) := by
  unfold CostApp.recommendation
  by_cases h1 : savings > 0
  · rw [if_pos h1]
    refine ⟨⟨fun _ => h1, fun _ => rfl⟩,
      ⟨fun h => absurd h (by decide), fun h => absurd h (by linarith)⟩,
      ⟨fun h => absurd h (by decide), fun h => absurd h.1 (by linarith)⟩⟩
  · rw [if_neg h1]
    by_cases h2 : savings < -1000
    · rw [if_pos h2]
      refine ⟨⟨fun h => absurd h (by decide), fun h => absurd h h1⟩,
        ⟨fun _ => h2, fun _ => rfl⟩,
        ⟨fun h => absurd h (by decide), fun h => absurd h2 (not_lt.mpr h.2)⟩⟩
    · rw [if_neg h2]
      refine ⟨⟨fun h => absurd h (by decide), fun h => absurd h h1⟩,
        ⟨fun h => absurd h (by decide), fun h => absurd h h2⟩,
        ⟨fun _ => ⟨not_lt.mp h1, not_lt.mp h2⟩, fun _ => rfl⟩⟩

